import Mathlib

/-!
# AetherHUD: window-state lifecycle of the overlay window

A shallow embedding of `src/main.cpp` (classes `AetherHUDPage` and
`AetherHUDWindow`, and the tail of `main`).  The C++ object is a record, every
member function is a function from record to record.

The Qt classes the program calls are not part of the repository.  They are
modelled here by their documented behaviour, restricted to what the program
uses:

* `QByteArray` is a list of characters, `QString` a string;
* `QJsonValue`, `QJsonObject`, `QJsonDocument`: JSON values whose numbers are
  integers (the program only ever stores C `int`s, which Qt 6 keeps as
  integers and writes as decimal numerals), objects kept sorted by key as Qt
  keeps them; `toJson(Compact)` and `fromJson` are a concrete writer and a
  concrete recursive-descent reader over the text.  The reader accepts
  objects, arrays, strings without escape sequences, integer literals,
  `true`, `false`, `null` and white space; numerals with a fraction or an
  exponent and strings with a backslash are outside the modelled fragment and
  are rejected;
* `QSettings` is a key/value map from strings to byte arrays.  A key is
  normalised as `QSettingsPrivate::normalizedKey` does (leading, trailing and
  repeated `/` dropped) and then folded by the case folding of the backend,
  which is a parameter of the store (the identity where keys are case
  sensitive, a lower-casing on the Windows registry); two keys name the same
  entry exactly when they agree after both steps.  The store also carries the
  list of calls made on it, so that "no read, no write" can be stated.  The
  refusal of a literally empty key is not modelled: the program never passes
  one.  A key made of slashes only is kept under the empty normalised key, as
  a release build of Qt keeps it;
* `QWidget`: position, visibility, style sheet and cursor are plain fields
  that `move`, `setVisible`, `setStyleSheet`, `setCursor` overwrite; `resize`
  bounds each side to the default minimum and maximum size of a widget, 0 and
  16777215; a top-level widget is visible exactly when it was last shown.

The C type `int` is `Int` together with the range predicate `fitsInt`.
-/

namespace AetherHUD

/-! ## Qt value types -/

abbrev QByteArray := List Char

abbrev QString := String

/-- Smallest value of the C type `int` (32 bits). -/
def INT_MIN : Int := -2147483648

/-- Largest value of the C type `int` (32 bits). -/
def INT_MAX : Int := 2147483647

/-- The integer is a value of the C type `int`. -/
def fitsInt (n : Int) : Prop := INT_MIN ≤ n ∧ n ≤ INT_MAX

instance (n : Int) : Decidable (fitsInt n) := by
  unfold fitsInt; infer_instance

/-- The type `QJsonValue`.  `double` carries an integral number only. -/
inductive QJsonValue where
  | null
  | bool (b : Bool)
  | double (n : Int)
  | string (s : QString)
  | array (items : List QJsonValue)
  | object (members : List (QString × QJsonValue))
  | undefined

/-- The type `QJsonObject`: members sorted by key, every key at most once. -/
abbrev QJsonObject := List (QString × QJsonValue)

/-- The order of `QString::operator<`: lexicographic by character code. -/
def keyLess : List Char → List Char → Bool
  | [], [] => false
  | [], _ :: _ => true
  | _ :: _, [] => false
  | a :: as, b :: bs =>
    if a.toNat < b.toNat then true else if a = b then keyLess as bs else false

/-- `QJsonObject::insert`, also `obj[key] = v` and the members of an initializer
list: replaces the value of an existing key, otherwise inserts in key order. -/
def QJsonObject.insert (o : QJsonObject) (key : QString) (v : QJsonValue) : QJsonObject :=
  match o with
  | [] => [(key, v)]
  | (k, old) :: rest =>
    if key = k then (k, v) :: rest
    else if keyLess key.toList k.toList then (key, v) :: (k, old) :: rest
    else (k, old) :: QJsonObject.insert rest key v

/-- `QJsonObject::value`, also `obj[key]` on a const object: the value stored
under the key, `undefined` when there is none. -/
def QJsonObject.value (o : QJsonObject) (key : QString) : QJsonValue :=
  match o with
  | [] => .undefined
  | (k, v) :: rest => if key = k then v else QJsonObject.value rest key

/-- `QJsonValue::toObject()`: the object, or an empty object for any other type. -/
def QJsonValue.toObject : QJsonValue → QJsonObject
  | .object members => members
  | _ => []

/-- `QJsonValue::toInt()`: the number when it is a value of `int`, otherwise the
default 0. -/
def QJsonValue.toInt : QJsonValue → Int
  | .double n => if INT_MIN ≤ n ∧ n ≤ INT_MAX then n else 0
  | _ => 0

/-- `QJsonValue::toBool()`: the boolean, or the default `false` for any other type. -/
def QJsonValue.toBool : QJsonValue → Bool
  | .bool b => b
  | _ => false

/-! ## JSON text: writer -/

/-- Decimal digits of `n`, most significant first, in front of `acc`. -/
def natText.go : Nat → Nat → List Char → List Char
  | 0, _, acc => acc
  | fuel + 1, n, acc =>
    let acc1 := Char.ofNat (48 + n % 10) :: acc
    if n / 10 = 0 then acc1 else natText.go fuel (n / 10) acc1

/-- Decimal numeral of a natural number. -/
def natText (n : Nat) : List Char := natText.go (n + 1) n []

/-- Decimal numeral of an integer. -/
def intText (n : Int) : List Char :=
  if n < 0 then '-' :: natText n.natAbs else natText n.natAbs

/-- The text of the literal `true` or `false`. -/
def boolText (b : Bool) : List Char :=
  if b then "true".toList else "false".toList

mutual
/-- Compact JSON text of a value. -/
def writeValue : QJsonValue → List Char
  | .object members => '{' :: writeMembers members ++ ['}']
  | .array items => '[' :: writeItems items ++ [']']
  | .string s => '"' :: s.toList ++ ['"']
  | .double n => intText n
  | .bool b => boolText b
  | .null => "null".toList
  | .undefined => "null".toList
/-- Compact JSON text of the items of an array, separated by commas. -/
def writeItems : List QJsonValue → List Char
  | [] => []
  | [v] => writeValue v
  | v :: w :: rest => writeValue v ++ ',' :: writeItems (w :: rest)
/-- Compact JSON text of the members of an object, separated by commas. -/
def writeMembers : List (QString × QJsonValue) → List Char
  | [] => []
  | [(k, v)] => '"' :: k.toList ++ '"' :: ':' :: writeValue v
  | (k, v) :: m :: rest =>
    '"' :: k.toList ++ '"' :: ':' :: writeValue v ++ ',' :: writeMembers (m :: rest)
end

/-! ## JSON text: reader -/

/-- Drops leading white space (space, tab, line feed, carriage return). -/
def skipWs : List Char → List Char
  | [] => []
  | c :: cs => if c = ' ' ∨ c = '\t' ∨ c = '\n' ∨ c = '\r' then skipWs cs else c :: cs

/-- Reads a run of decimal digits into the accumulator. -/
def parseDigits : List Char → Nat → Nat × List Char
  | [], acc => (acc, [])
  | c :: cs, acc =>
    if c.isDigit then parseDigits cs (acc * 10 + (c.toNat - 48)) else (acc, c :: cs)

/-- Reads `0` or a run of digits that does not start with `0`. -/
def parseNat : List Char → Option (Nat × List Char)
  | [] => none
  | c :: cs =>
    if c = '0' then some (0, cs)
    else if c.isDigit then some (parseDigits (c :: cs) 0)
    else none

/-- Reads an integer literal.  A literal that runs to the end of the input, or
that continues with a fraction or an exponent, is rejected. -/
def parseNumber : List Char → Option (Int × List Char)
  | [] => none
  | c :: cs =>
    let signed : Option (Int × List Char) :=
      if c = '-' then (parseNat cs).map fun r => (-(r.1 : Int), r.2)
      else (parseNat (c :: cs)).map fun r => ((r.1 : Int), r.2)
    match signed with
    | none => none
    | some (_, []) => none
    | some (n, d :: rest) =>
      if d = '.' ∨ d = 'e' ∨ d = 'E' then none else some (n, d :: rest)

/-- Reads the characters of a string up to the closing quote. -/
def parseStringBody : List Char → List Char → Option (List Char × List Char)
  | [], _ => none
  | c :: cs, acc =>
    if c = '"' then some (acc.reverse, cs)
    else if c = '\\' then none
    else parseStringBody cs (c :: acc)

/-- Reads the given keyword at the head of the input. -/
def parseKeyword (word : List Char) (cs : List Char) : Option (List Char) :=
  if cs.take word.length = word then some (cs.drop word.length) else none

mutual
/-- Reads one JSON value; `fuel` bounds the number of nested reads. -/
def parseValue : Nat → List Char → Option (QJsonValue × List Char)
  | 0, _ => none
  | _ + 1, [] => none
  | fuel + 1, c :: cs =>
    if c = '{' then
      match skipWs cs with
      | '}' :: rest => some (.object [], rest)
      | cs1 =>
        match parseMembers fuel cs1 [] with
        | none => none
        | some (o, rest) => some (.object o, rest)
    else if c = '[' then
      match skipWs cs with
      | ']' :: rest => some (.array [], rest)
      | cs1 =>
        match parseItems fuel cs1 [] with
        | none => none
        | some (a, rest) => some (.array a, rest)
    else if c = '"' then
      match parseStringBody cs [] with
      | none => none
      | some (s, rest) => some (.string (String.mk s), rest)
    else if c = '-' ∨ c.isDigit then
      match parseNumber (c :: cs) with
      | none => none
      | some (n, rest) => some (.double n, rest)
    else if c = 't' then
      (parseKeyword ['r', 'u', 'e'] cs).map fun rest => (.bool true, rest)
    else if c = 'f' then
      (parseKeyword ['a', 'l', 's', 'e'] cs).map fun rest => (.bool false, rest)
    else if c = 'n' then
      (parseKeyword ['u', 'l', 'l'] cs).map fun rest => (.null, rest)
    else none
/-- Reads the members of an object after the opening brace, up to and
including the closing brace. -/
def parseMembers : Nat → List Char → QJsonObject → Option (QJsonObject × List Char)
  | 0, _, _ => none
  | fuel + 1, cs, acc =>
    match cs with
    | '"' :: cs1 =>
      match parseStringBody cs1 [] with
      | none => none
      | some (k, cs2) =>
        match skipWs cs2 with
        | ':' :: cs3 =>
          match parseValue fuel (skipWs cs3) with
          | none => none
          | some (v, cs4) =>
            match skipWs cs4 with
            | ',' :: cs5 =>
              parseMembers fuel (skipWs cs5) (QJsonObject.insert acc (String.mk k) v)
            | '}' :: cs5 => some (QJsonObject.insert acc (String.mk k) v, cs5)
            | _ => none
        | _ => none
    | _ => none
/-- Reads the items of an array after the opening bracket, up to and including
the closing bracket. -/
def parseItems : Nat → List Char → List QJsonValue → Option (List QJsonValue × List Char)
  | 0, _, _ => none
  | fuel + 1, cs, acc =>
    match parseValue fuel cs with
    | none => none
    | some (v, cs1) =>
      match skipWs cs1 with
      | ',' :: cs2 => parseItems fuel (skipWs cs2) (acc ++ [v])
      | ']' :: cs2 => some (acc ++ [v], cs2)
      | _ => none
end

/-- The type `QJsonDocument`: null (invalid), or wrapping one array or object. -/
inductive QJsonDocument where
  | null
  | ofArray (items : List QJsonValue)
  | ofObject (members : QJsonObject)

/-- `QJsonDocument(obj).toJson(QJsonDocument::Compact)`. -/
def QJsonDocument.toJson (o : QJsonObject) : QByteArray :=
  writeValue (.object o)

/-- `QJsonDocument::fromJson`: the document read from the text, the null
document when the text is not one JSON array or object. -/
def QJsonDocument.fromJson (json : QByteArray) : QJsonDocument :=
  match parseValue (json.length + 1) (skipWs json) with
  | some (.object o, rest) => if skipWs rest = [] then .ofObject o else .null
  | some (.array a, rest) => if skipWs rest = [] then .ofArray a else .null
  | _ => .null

/-- `QJsonDocument::object()`: the object of the document, an empty object when
the document is null or holds an array. -/
def QJsonDocument.object : QJsonDocument → QJsonObject
  | .ofObject o => o
  | _ => []

/-! ## Widget sizes -/

/-- The constant `QWIDGETSIZE_MAX`, the default maximum width and height of a
widget; the default minimum is 0. -/
def QWIDGETSIZE_MAX : Int := 16777215

/-- One side of `size.boundedTo(maximumSize()).expandedTo(minimumSize())` for a
widget with the default minimum and maximum size. -/
def clampSize (n : Int) : Int :=
  if n < 0 then 0 else if QWIDGETSIZE_MAX < n then QWIDGETSIZE_MAX else n

/-! ## The saved state -/

/-- The six values of one saved state: position, size, visibility, lock flag. -/
structure WindowState where
  x : Int
  y : Int
  width : Int
  height : Int
  visible : Bool
  locked : Bool
  deriving DecidableEq

/-- Position and size are values of the C type `int`, as `x()`, `y()`, `width()`
and `height()` return them. -/
def WindowState.fits (s : WindowState) : Prop :=
  fitsInt s.x ∧ fitsInt s.y ∧ fitsInt s.width ∧ fitsInt s.height

instance (s : WindowState) : Decidable s.fits := by
  unfold WindowState.fits; infer_instance

/-- Values a widget can have: a position of `int` values and a size within the
default minimum and maximum size. -/
def WindowState.inWidgetRange (s : WindowState) : Prop :=
  fitsInt s.x ∧ fitsInt s.y ∧
    (0 ≤ s.width ∧ s.width ≤ QWIDGETSIZE_MAX) ∧ (0 ≤ s.height ∧ s.height ≤ QWIDGETSIZE_MAX)

instance (s : WindowState) : Decidable s.inWidgetRange := by
  unfold WindowState.inWidgetRange; infer_instance

/-- The JSON object `state` that `saveWindowState` builds (lines 193-203) from the
six values. -/
def stateObject (s : WindowState) : QJsonObject :=
  let state : QJsonObject := []
  let state := QJsonObject.insert state "pos" (.object
    (QJsonObject.insert (QJsonObject.insert [] "x" (.double s.x)) "y" (.double s.y)))
  let state := QJsonObject.insert state "size" (.object
    (QJsonObject.insert (QJsonObject.insert [] "width" (.double s.width))
      "height" (.double s.height)))
  let state := QJsonObject.insert state "visible" (.bool s.visible)
  let state := QJsonObject.insert state "locked" (.bool s.locked)
  state

/-- The six values `loadWindowState` reads from a saved text (lines 214-221). -/
def readWindowState (savedState : QByteArray) : WindowState :=
  let state := (QJsonDocument.fromJson savedState).object
  let pos := (QJsonObject.value state "pos").toObject
  let size := (QJsonObject.value state "size").toObject
  { x := (QJsonObject.value pos "x").toInt
    y := (QJsonObject.value pos "y").toInt
    width := (QJsonObject.value size "width").toInt
    height := (QJsonObject.value size "height").toInt
    visible := (QJsonObject.value state "visible").toBool
    locked := (QJsonObject.value state "locked").toBool }

/-- The key expression of lines 205 and 210:
`currentJob.isEmpty() ? "defaultState" : currentJob`. -/
def stateKey (currentJob : QString) : QString :=
  if currentJob = "" then "defaultState" else currentJob

/-! ## QSettings -/

/-- One call made on the settings object. -/
inductive SettingsCall where
  | setValue (key : QString) (value : QByteArray)
  | value (key : QString)
  deriving DecidableEq

/-- The loop of `QSettingsPrivate::normalizedKey` after the leading slashes:
`pending` says that a slash was seen since the last character kept. -/
def normalizedKey.go : Bool → List Char → List Char
  | _, [] => []
  | pending, c :: cs =>
    if c = '/' then normalizedKey.go true cs
    else if pending then '/' :: c :: normalizedKey.go false cs
    else c :: normalizedKey.go false cs

/-- `QSettingsPrivate::normalizedKey`: the key without leading and trailing
slashes and with every run of slashes reduced to one. -/
def normalizedKey (key : List Char) : List Char :=
  normalizedKey.go false (key.dropWhile (fun c => c = '/'))

/-- The member `QSettings settings`: the case folding the backend applies to
keys, the stored entries under their normalised and folded keys (the first entry
of a key is the one that counts) and the calls made on the object so far, newest
first. -/
structure QSettings where
  caseFold : QString → QString
  entries : List (QString × QByteArray)
  calls : List SettingsCall

/-- The key under which the store keeps the entry of `key`: normalised, then
folded. -/
def QSettings.actualKey (s : QSettings) (key : QString) : QString :=
  s.caseFold (String.mk (normalizedKey key.toList))

/-- The byte array stored under the key; the empty byte array when the key was
never written (`QVariant().toByteArray()`). -/
def QSettings.stored (s : QSettings) (key : QString) : QByteArray :=
  match s.entries.find? (fun e => e.1 = s.actualKey key) with
  | some e => e.2
  | none => []

/-- `settings.value(key).toByteArray()`: the stored byte array, and the settings
object with the call recorded. -/
def QSettings.value (s : QSettings) (key : QString) : QByteArray × QSettings :=
  (s.stored key, { s with calls := .value key :: s.calls })

/-- `settings.setValue(key, value)`. -/
def QSettings.setValue (s : QSettings) (key : QString) (value : QByteArray) : QSettings :=
  { s with
    entries := (s.actualKey key, value) :: s.entries.filter (fun e => e.1 ≠ s.actualKey key)
    calls := .setValue key value :: s.calls }

/-! ## AetherHUDPage -/

/-- The class `AetherHUDPage`: the error pages rendered so far, newest first, each
with the message and the failing URL it was rendered for. -/
structure AetherHUDPage where
  errorPages : List (QString × QString)
  deriving DecidableEq

/-- `AetherHUDPage::showErrorPage` (lines 49-97): one `setHtml` call with the error
template filled in with the message and the URL. -/
def AetherHUDPage.showErrorPage (p : AetherHUDPage) (errorMessage failingUrl : QString) :
    AetherHUDPage :=
  { p with errorPages := (errorMessage, failingUrl) :: p.errorPages }

/-! ## AetherHUDWindow -/

/-- The two values of `Qt::CursorShape` the program uses. -/
inductive CursorShape where
  | ArrowCursor
  | SizeAllCursor
  deriving DecidableEq

/-- The class `AetherHUDWindow`: the state of the `QWebEngineView` base object
that the program reads or writes, and the data members of lines 104-109. -/
structure AetherHUDWindow where
  x : Int
  y : Int
  width : Int
  height : Int
  visible : Bool
  styleSheet : QString
  cursor : CursorShape
  url : QString
  page : AetherHUDPage
  lastError : QString
  isLocked : Bool
  currentJob : QString
  settings : QSettings

/-- The values `saveWindowState` reads off the window: `x()`, `y()`, `width()`,
`height()`, `isVisible()` and `isLocked`. -/
def AetherHUDWindow.windowState (w : AetherHUDWindow) : WindowState :=
  { x := w.x, y := w.y, width := w.width, height := w.height
    visible := w.visible, locked := w.isLocked }

/-- `QWidget::move`. -/
def AetherHUDWindow.move (w : AetherHUDWindow) (x y : Int) : AetherHUDWindow :=
  { w with x := x, y := y }

/-- `QWidget::resize`: the size asked for, bounded to the maximum and expanded
to the minimum size of the widget. -/
def AetherHUDWindow.resize (w : AetherHUDWindow) (width height : Int) : AetherHUDWindow :=
  { w with width := clampSize width, height := clampSize height }

/-- `QWidget::setVisible`. -/
def AetherHUDWindow.setVisible (w : AetherHUDWindow) (visible : Bool) : AetherHUDWindow :=
  { w with visible := visible }

/-- `QWidget::show`, the same as `setVisible(true)`. -/
def AetherHUDWindow.show (w : AetherHUDWindow) : AetherHUDWindow :=
  w.setVisible true

/-- `QWidget::setCursor`. -/
def AetherHUDWindow.setCursor (w : AetherHUDWindow) (c : CursorShape) : AetherHUDWindow :=
  { w with cursor := c }

/-- `QWidget::setStyleSheet`. -/
def AetherHUDWindow.setStyleSheet (w : AetherHUDWindow) (sheet : QString) : AetherHUDWindow :=
  { w with styleSheet := sheet }

/-- `mousePressEvent` and `mouseMoveEvent` (lines 151-161): whether a pointer
event is handed on to the web view. -/
def AetherHUDWindow.forwardsMouseEvent (w : AetherHUDWindow) : Bool :=
  !w.isLocked

/-- `toggleVisibility` (lines 176-178). -/
def AetherHUDWindow.toggleVisibility (w : AetherHUDWindow) : AetherHUDWindow :=
  w.setVisible (!w.visible)

/-- `toggleLock` (lines 180-190). -/
def AetherHUDWindow.toggleLock (w : AetherHUDWindow) : AetherHUDWindow :=
  let w := { w with isLocked := !w.isLocked }
  if w.isLocked then
    (w.setCursor .ArrowCursor).setStyleSheet "background: transparent; border: none;"
  else
    (w.setCursor .SizeAllCursor).setStyleSheet
      "background: transparent; border: 1px solid rgba(255,206,84,0.3);"

/-- `saveWindowState` (lines 192-207). -/
def AetherHUDWindow.saveWindowState (w : AetherHUDWindow) : AetherHUDWindow :=
  { w with
    settings := w.settings.setValue (stateKey w.currentJob)
      (QJsonDocument.toJson (stateObject w.windowState)) }

/-- `loadWindowState` (lines 209-223). -/
def AetherHUDWindow.loadWindowState (w : AetherHUDWindow) : AetherHUDWindow :=
  let key := stateKey w.currentJob
  let savedState := (w.settings.value key).1
  let w := { w with settings := (w.settings.value key).2 }
  if savedState ≠ [] then
    let state := readWindowState savedState
    let w := w.move state.x state.y
    let w := w.resize state.width state.height
    let w := w.setVisible state.visible
    { w with isLocked := state.locked }
  else w

/-- `handleLoadFinished` (lines 225-232). -/
def AetherHUDWindow.handleLoadFinished (w : AetherHUDWindow) (ok : Bool) : AetherHUDWindow :=
  if ok = false ∧ w.lastError = "" then
    { w with page := w.page.showErrorPage "Failed to load overlay" w.url }
  else w

/-- `setJob` (lines 235-241). -/
def AetherHUDWindow.setJob (w : AetherHUDWindow) (job : QString) : AetherHUDWindow :=
  if w.currentJob ≠ job then
    let w := w.saveWindowState
    let w := { w with currentJob := job }
    w.loadWindowState
  else w

/-- The constructor `AetherHUDWindow(const QUrl&)` (lines 114-144), given the
case folding of the settings backend and the entries the settings store of
("AetherHUD", "Overlay") holds when it is opened.  A top-level widget starts
hidden, at (0,0) with size 640x480, with the arrow cursor and an empty style
sheet; the string members start empty.  The hotkeys of `setupHotkeys` only
connect `toggleVisibility` and `toggleLock`. -/
def AetherHUDWindow.new (url : QString) (caseFold : QString → QString)
    (persisted : List (QString × QByteArray)) : AetherHUDWindow :=
  let w : AetherHUDWindow :=
    { x := 0, y := 0, width := 640, height := 480, visible := false,
      styleSheet := "", cursor := .ArrowCursor, url := "",
      page := { errorPages := [] }, lastError := "", isLocked := false,
      currentJob := ""
      settings := { caseFold := caseFold, entries := persisted, calls := [] } }
  let w := w.setStyleSheet "background: transparent;"
  let w := w.loadWindowState
  { w with url := url }

/-- The destructor `~AetherHUDWindow` (lines 146-148). -/
def AetherHUDWindow.destroy (w : AetherHUDWindow) : AetherHUDWindow :=
  w.saveWindowState

/-- The tail of `main` (lines 262-265), once the URL argument is accepted:
construct the window, resize it, show it. -/
def main (url : QString) (caseFold : QString → QString)
    (persisted : List (QString × QByteArray)) : AetherHUDWindow :=
  let window := AetherHUDWindow.new url caseFold persisted
  let window := window.resize 800 600
  window.show

/-! ## Example inputs -/

/-- The window of the spec's example: at (100,100), size 800x600, visible,
unlocked, default context, nothing stored, keys case sensitive. -/
def exampleWindow : AetherHUDWindow :=
  (main "http://localhost:3000" id []).move 100 100

/-- The text saved for a hidden, unlocked window at (100,100) of size 400x300. -/
def hiddenStateText : QByteArray :=
  QJsonDocument.toJson (stateObject
    { x := 100, y := 100, width := 400, height := 300, visible := false, locked := false })

/-- The spec's example window after a switch to the context "raid" and a move
to (30,40): context "raid" active, the default context saved in the store. -/
def raidWindow : AetherHUDWindow :=
  (exampleWindow.setJob "raid").move 30 40

/-- A stored value that is not JSON. -/
def corruptText : QByteArray := "not json".toList

/-! ## Predicates used in the proofs -/

/-- A key that the writer emits verbatim: no quote, no backslash. -/
def plainKey (k : List Char) : Prop := ∀ c ∈ k, c ≠ '"' ∧ c ≠ '\\'

instance (k : List Char) : Decidable (plainKey k) := by
  unfold plainKey; infer_instance

/-- The text of the value, followed by a comma or a closing brace, is read back
as the value with any fuel from `f0` on, and does not start with white space. -/
def ReadsBack (f0 : Nat) (v : QJsonValue) : Prop :=
  ∀ fuel, f0 ≤ fuel → ∀ c rest, (c = ',' ∨ c = '}') →
    parseValue fuel (writeValue v ++ c :: rest) = some (v, c :: rest) ∧
    skipWs (writeValue v ++ c :: rest) = writeValue v ++ c :: rest

/-! ## Numerals are read back -/

theorem digit_isDigit (d : Nat) (h : d < 10) : (Char.ofNat (48 + d)).isDigit = true := by
  interval_cases d <;> decide

theorem digit_toNat (d : Nat) (h : d < 10) : (Char.ofNat (48 + d)).toNat - 48 = d := by
  interval_cases d <;> decide

theorem digit_ne_zero (d : Nat) (h : d < 10) (h0 : d ≠ 0) : Char.ofNat (48 + d) ≠ '0' := by
  interval_cases d <;> first | exact absurd rfl h0 | decide

theorem natText_go_append (fuel n : Nat) (acc rest : List Char) :
    natText.go fuel n acc ++ rest = natText.go fuel n (acc ++ rest) := by
  induction fuel generalizing n acc with
  | zero => simp [natText.go]
  | succ fuel ih =>
    simp only [natText.go]
    split
    · simp
    · rw [ih]; simp

theorem parseDigits_go (fuel n : Nat) (tail : List Char) (h : n < 10 ^ fuel) :
    ∃ k, ∀ a, parseDigits (natText.go fuel n tail) a = parseDigits tail (a * 10 ^ k + n) := by
  induction fuel generalizing n tail with
  | zero =>
    refine ⟨0, fun a => ?_⟩
    have : n = 0 := by simpa using h
    simp [natText.go, this]
  | succ fuel ih =>
    have hd : n % 10 < 10 := Nat.mod_lt _ (by decide)
    simp only [natText.go]
    split
    · rename_i h0
      refine ⟨1, fun a => ?_⟩
      have hn : n % 10 = n := by omega
      rw [hn] at hd ⊢
      simp only [parseDigits, digit_isDigit _ hd, digit_toNat _ hd, if_true, pow_one]
    · obtain ⟨k, hk⟩ := ih (n / 10) (Char.ofNat (48 + n % 10) :: tail)
        (by rw [pow_succ] at h; omega)
      refine ⟨k + 1, fun a => ?_⟩
      rw [hk]
      simp only [parseDigits, digit_isDigit _ hd, digit_toNat _ hd, if_true]
      congr 1
      rw [pow_succ]
      have := Nat.div_add_mod n 10
      nlinarith [this]

theorem natText_go_head (fuel n : Nat) (tail : List Char) (h : n < 10 ^ fuel) (h0 : 0 < n) :
    ∃ c cs, natText.go fuel n tail = c :: cs ∧ c.isDigit = true ∧ c ≠ '0' := by
  induction fuel generalizing n tail with
  | zero => simp at h; omega
  | succ fuel ih =>
    have hd : n % 10 < 10 := Nat.mod_lt _ (by decide)
    simp only [natText.go]
    split
    · refine ⟨_, _, rfl, digit_isDigit _ hd, digit_ne_zero _ hd (by omega)⟩
    · exact ih (n / 10) _ (by rw [pow_succ] at h; omega) (by omega)

theorem lt_ten_pow_succ (n : Nat) : n < 10 ^ (n + 1) :=
  lt_trans (Nat.lt_pow_self (by decide) n)
    (Nat.pow_lt_pow_right (by decide) (Nat.lt_succ_self n))

theorem parseDigits_stop (c : Char) (rest : List Char) (a : Nat) (hc : c.isDigit = false) :
    parseDigits (c :: rest) a = (a, c :: rest) := by
  simp [parseDigits, hc]

theorem parseNat_natText (n : Nat) (c : Char) (rest : List Char) (hc : c.isDigit = false) :
    parseNat (natText n ++ c :: rest) = some (n, c :: rest) := by
  rcases Nat.eq_zero_or_pos n with h0 | hpos
  · subst h0
    simp [natText, natText.go, parseNat]
  · obtain ⟨d, ds, hgo, hdig, hne⟩ :=
      natText_go_head (n + 1) n (c :: rest) (lt_ten_pow_succ n) hpos
    obtain ⟨k, hk⟩ := parseDigits_go (n + 1) n (c :: rest) (lt_ten_pow_succ n)
    have happ : natText n ++ c :: rest = d :: ds := by
      rw [natText, natText_go_append]; simpa using hgo
    rw [happ]
    simp only [parseNat, hne, hdig, if_false, if_true]
    rw [← hgo, hk 0, parseDigits_stop c rest _ hc]
    simp

theorem natText_head (n : Nat) : ∃ d ds, natText n = d :: ds ∧ d.isDigit = true := by
  rcases Nat.eq_zero_or_pos n with h0 | hpos
  · subst h0
    exact ⟨'0', [], by simp [natText, natText.go], by decide⟩
  · obtain ⟨d, ds, hgo, hdig, _⟩ := natText_go_head (n + 1) n [] (lt_ten_pow_succ n) hpos
    exact ⟨d, ds, hgo, hdig⟩

theorem intText_head (n : Int) :
    ∃ d ds, intText n = d :: ds ∧ (d = '-' ∨ d.isDigit = true) := by
  unfold intText
  split
  · exact ⟨'-', _, rfl, Or.inl rfl⟩
  · obtain ⟨d, ds, h, hd⟩ := natText_head n.natAbs
    exact ⟨d, ds, h, Or.inr hd⟩

theorem parseNumber_intText (n : Int) (c : Char) (rest : List Char) (hc : c.isDigit = false)
    (h1 : c ≠ '.') (h2 : c ≠ 'e') (h3 : c ≠ 'E') :
    parseNumber (intText n ++ c :: rest) = some (n, c :: rest) := by
  unfold intText
  split
  · rename_i hneg
    simp [parseNumber, parseNat_natText _ c rest hc, h1, h2, h3, abs_of_neg hneg]
  · rename_i hpos
    have hn : ((n.natAbs : Nat) : Int) = n := by omega
    obtain ⟨d, ds, h, hd⟩ := natText_head n.natAbs
    have hne : d ≠ '-' := by
      rintro rfl
      exact absurd hd (by decide)
    have hp := parseNat_natText n.natAbs c rest hc
    rw [h] at hp ⊢
    simp only [List.cons_append] at hp ⊢
    simp [parseNumber, hne, hp, h1, h2, h3, hn]

/-- A numeral followed by a comma or a closing brace is read back as its number. -/
theorem parseValue_intText (fuel : Nat) (n : Int) (c : Char) (rest : List Char)
    (hc : c = ',' ∨ c = '}') :
    parseValue (fuel + 1) (intText n ++ c :: rest) = some (.double n, c :: rest) := by
  have hp : parseNumber (intText n ++ c :: rest) = some (n, c :: rest) := by
    rcases hc with rfl | rfl <;>
      exact parseNumber_intText n _ rest (by decide) (by decide) (by decide) (by decide)
  obtain ⟨d, ds, h, hd⟩ := intText_head n
  rw [h] at hp ⊢
  simp only [List.cons_append] at hp ⊢
  have h1 : d ≠ '{' := by
    rintro rfl
    rcases hd with hd | hd <;> exact absurd hd (by decide)
  have h2 : d ≠ '[' := by
    rintro rfl
    rcases hd with hd | hd <;> exact absurd hd (by decide)
  have h3 : d ≠ '"' := by
    rintro rfl
    rcases hd with hd | hd <;> exact absurd hd (by decide)
  simp only [parseValue, h1, h2, h3, if_false, hd, if_true, hp]

/-- The keywords `true` and `false` are read back as their booleans. -/
theorem parseValue_bool (fuel : Nat) (b : Bool) (rest : List Char) :
    parseValue (fuel + 1) (writeValue (.bool b) ++ rest) = some (.bool b, rest) := by
  cases b <;> simp [writeValue, boolText, parseValue, parseKeyword]

/-! ## Objects are read back -/

theorem parseStringBody_plain (k : List Char) (hk : plainKey k) (rest acc : List Char) :
    parseStringBody (k ++ '"' :: rest) acc = some (acc.reverse ++ k, rest) := by
  induction k generalizing acc with
  | nil => simp [parseStringBody]
  | cons c k ih =>
    have hc := hk c (List.mem_cons_self _ _)
    have hk2 : plainKey k := fun d hd => hk d (List.mem_cons_of_mem _ hd)
    simp [parseStringBody, hc.1, hc.2, ih hk2]

theorem skipWs_of_head (c : Char) (cs : List Char)
    (h : c ≠ ' ' ∧ c ≠ '\t' ∧ c ≠ '\n' ∧ c ≠ '\r') : skipWs (c :: cs) = c :: cs := by
  simp [skipWs, h.1, h.2.1, h.2.2.1, h.2.2.2]

theorem readsBack_double (n : Int) : ReadsBack 1 (.double n) := by
  intro fuel hf c rest hc
  obtain ⟨f, rfl⟩ : ∃ f, fuel = f + 1 := ⟨fuel - 1, by omega⟩
  refine ⟨by simpa [writeValue] using parseValue_intText f n c rest hc, ?_⟩
  obtain ⟨d, ds, h, hd⟩ := intText_head n
  simp only [writeValue, h, List.cons_append]
  apply skipWs_of_head
  refine ⟨?_, ?_, ?_, ?_⟩ <;>
    · rintro rfl
      rcases hd with hd | hd <;> exact absurd hd (by decide)

theorem readsBack_bool (b : Bool) : ReadsBack 1 (.bool b) := by
  intro fuel hf c rest _
  obtain ⟨f, rfl⟩ : ∃ f, fuel = f + 1 := ⟨fuel - 1, by omega⟩
  refine ⟨parseValue_bool f b _, ?_⟩
  cases b <;> simp [writeValue, boolText, skipWs]

theorem writeMembers_head (m : QString × QJsonValue) (tl : List (QString × QJsonValue)) :
    ∃ cs, writeMembers (m :: tl) = '"' :: cs := by
  cases tl with
  | nil => exact ⟨_, by simp [writeMembers]; rfl⟩
  | cons a tl => exact ⟨_, by simp [writeMembers]; rfl⟩

/-- One member of an object is read: its key, the colon and its value. -/
theorem parseMembers_step (fuel f0 : Nat) (hf : f0 ≤ fuel) (k : QString) (v : QJsonValue)
    (hk : plainKey k.toList) (hv : ReadsBack f0 v) (c : Char) (rest : List Char)
    (hc : c = ',' ∨ c = '}') (acc : QJsonObject) :
    parseMembers (fuel + 1)
        ('"' :: (k.toList ++ '"' :: ':' :: (writeValue v ++ c :: rest))) acc =
      if c = ',' then parseMembers fuel (skipWs rest) (QJsonObject.insert acc k v)
      else some (QJsonObject.insert acc k v, rest) := by
  obtain ⟨hp, hs⟩ := hv fuel hf c rest hc
  obtain ⟨kd⟩ := k
  have hb := parseStringBody_plain kd hk (':' :: (writeValue v ++ c :: rest)) []
  rcases hc with rfl | rfl <;>
    simp [parseMembers, String.toList, hb, skipWs, hs, hp]

theorem parseMembers_writeMembers (f0 : Nat) (ms : List (QString × QJsonValue))
    (hne : ms ≠ []) (hkeys : ∀ m ∈ ms, plainKey m.1.toList) (hvals : ∀ m ∈ ms, ReadsBack f0 m.2)
    (fuel : Nat) (hf : f0 + ms.length ≤ fuel) (acc : QJsonObject) (rest : List Char) :
    parseMembers fuel (writeMembers ms ++ '}' :: rest) acc =
      some (ms.foldl (fun o m => QJsonObject.insert o m.1 m.2) acc, rest) := by
  induction ms generalizing fuel acc with
  | nil => exact absurd rfl hne
  | cons m tl ih =>
    obtain ⟨k, v⟩ := m
    obtain ⟨f, rfl⟩ : ∃ f, fuel = f + 1 := ⟨fuel - 1, by simp at hf; omega⟩
    have hk := hkeys (k, v) (List.mem_cons_self _ _)
    have hv := hvals (k, v) (List.mem_cons_self _ _)
    have hf1 : f0 ≤ f := by simp at hf; omega
    cases tl with
    | nil =>
      have ht : writeMembers [(k, v)] ++ '}' :: rest =
          '"' :: (k.toList ++ '"' :: ':' :: (writeValue v ++ '}' :: rest)) := by
        simp [writeMembers]
      rw [ht, parseMembers_step f f0 hf1 k v hk hv '}' rest (Or.inr rfl)]
      simp
    | cons m2 tl2 =>
      have ht : writeMembers ((k, v) :: m2 :: tl2) ++ '}' :: rest =
          '"' :: (k.toList ++ '"' :: ':' ::
            (writeValue v ++ ',' :: (writeMembers (m2 :: tl2) ++ '}' :: rest))) := by
        simp [writeMembers]
      obtain ⟨cs, hcs⟩ := writeMembers_head m2 tl2
      have hsk : skipWs (writeMembers (m2 :: tl2) ++ '}' :: rest) =
          writeMembers (m2 :: tl2) ++ '}' :: rest := by
        rw [hcs]; simp [skipWs]
      rw [ht, parseMembers_step f f0 hf1 k v hk hv ',' _ (Or.inl rfl), if_pos rfl, hsk]
      rw [ih (by simp) (fun m hm => hkeys m (List.mem_cons_of_mem _ hm))
        (fun m hm => hvals m (List.mem_cons_of_mem _ hm)) f (by simp at hf ⊢; omega)]
      simp

/-- An object whose members are in key order, with plain keys and values that
are read back, is read back, whatever follows its closing brace. -/
theorem parseValue_object (f0 : Nat) (ms : List (QString × QJsonValue))
    (hkeys : ∀ m ∈ ms, plainKey m.1.toList) (hvals : ∀ m ∈ ms, ReadsBack f0 m.2)
    (hsorted : ms.foldl (fun o m => QJsonObject.insert o m.1 m.2) [] = ms)
    (fuel : Nat) (hf : f0 + ms.length + 1 ≤ fuel) (rest : List Char) :
    parseValue fuel (writeValue (.object ms) ++ rest) = some (.object ms, rest) := by
  obtain ⟨f, rfl⟩ : ∃ f, fuel = f + 1 := ⟨fuel - 1, by omega⟩
  cases ms with
  | nil => simp [writeValue, writeMembers, parseValue, skipWs]
  | cons m tl =>
    obtain ⟨cs, hcs⟩ := writeMembers_head m tl
    have hp := parseMembers_writeMembers f0 (m :: tl) (by simp) hkeys hvals f
      (by simp at hf ⊢; omega) [] rest
    rw [hsorted, hcs] at hp
    have ht : writeValue (.object (m :: tl)) ++ rest = '{' :: '"' :: (cs ++ '}' :: rest) := by
      simp [writeValue, hcs]
    rw [ht]
    simp only [List.cons_append] at hp
    simp [parseValue, skipWs, hp]

theorem readsBack_object (f0 : Nat) (ms : List (QString × QJsonValue))
    (hkeys : ∀ m ∈ ms, plainKey m.1.toList) (hvals : ∀ m ∈ ms, ReadsBack f0 m.2)
    (hsorted : ms.foldl (fun o m => QJsonObject.insert o m.1 m.2) [] = ms) :
    ReadsBack (f0 + ms.length + 1) (.object ms) := by
  intro fuel hf c rest _
  refine ⟨parseValue_object f0 ms hkeys hvals hsorted fuel hf _, ?_⟩
  simp [writeValue, skipWs]

theorem ReadsBack.mono {f0 f1 : Nat} {v : QJsonValue} (h : ReadsBack f0 v) (hle : f0 ≤ f1) :
    ReadsBack f1 v :=
  fun fuel hf => h fuel (le_trans hle hf)

theorem stateObject_eq (s : WindowState) :
    stateObject s =
      [("locked", .bool s.locked),
       ("pos", .object [("x", .double s.x), ("y", .double s.y)]),
       ("size", .object [("height", .double s.height), ("width", .double s.width)]),
       ("visible", .bool s.visible)] := rfl

theorem toJson_eq_cons (o : QJsonObject) :
    ∃ cs, QJsonDocument.toJson o = '{' :: cs :=
  ⟨_, by simp [QJsonDocument.toJson, writeValue]; rfl⟩

theorem toJson_ne_nil (o : QJsonObject) : QJsonDocument.toJson o ≠ [] := by
  obtain ⟨cs, h⟩ := toJson_eq_cons o
  simp [h]

theorem readsBack_pair (k1 k2 : QString) (a b : Int) (hk1 : plainKey k1.toList)
    (hk2 : plainKey k2.toList)
    (hs : [(k1, QJsonValue.double a), (k2, QJsonValue.double b)].foldl
      (fun o m => QJsonObject.insert o m.1 m.2) [] = [(k1, .double a), (k2, .double b)]) :
    ReadsBack 4 (.object [(k1, .double a), (k2, .double b)]) := by
  refine readsBack_object 1 _ ?_ ?_ hs
  · intro m hm
    simp at hm
    rcases hm with rfl | rfl <;> assumption
  · intro m hm
    simp at hm
    rcases hm with rfl | rfl <;> exact readsBack_double _

theorem parseValue_stateObject (s : WindowState) (fuel : Nat) (hf : 9 ≤ fuel) :
    parseValue fuel (QJsonDocument.toJson (stateObject s)) =
      some (.object (stateObject s), []) := by
  have h := parseValue_object 4 (stateObject s) ?_ ?_ ?_ fuel ?_ []
  · simpa [QJsonDocument.toJson] using h
  · intro m hm
    rw [stateObject_eq] at hm
    simp at hm
    rcases hm with rfl | rfl | rfl | rfl
    · exact (by decide : plainKey "locked".toList)
    · exact (by decide : plainKey "pos".toList)
    · exact (by decide : plainKey "size".toList)
    · exact (by decide : plainKey "visible".toList)
  · intro m hm
    rw [stateObject_eq] at hm
    simp at hm
    rcases hm with rfl | rfl | rfl | rfl
    · exact (readsBack_bool _).mono (by decide)
    · exact readsBack_pair _ _ _ _ (by decide) (by decide) rfl
    · exact readsBack_pair _ _ _ _ (by decide) (by decide) rfl
    · exact (readsBack_bool _).mono (by decide)
  · rfl
  · rw [stateObject_eq]; simpa using hf

theorem toJson_stateObject_length (s : WindowState) :
    8 ≤ (QJsonDocument.toJson (stateObject s)).length := by
  have h : ∃ r, QJsonDocument.toJson (stateObject s) =
      '{' :: '"' :: 'l' :: 'o' :: 'c' :: 'k' :: 'e' :: 'd' :: r := ⟨_, rfl⟩
  obtain ⟨r, hr⟩ := h
  rw [hr]
  simp

/-- The text `saveWindowState` writes is read back by `fromJson` as the object it
was written from. -/
theorem fromJson_toJson_stateObject (s : WindowState) :
    QJsonDocument.fromJson (QJsonDocument.toJson (stateObject s)) =
      .ofObject (stateObject s) := by
  obtain ⟨cs, hcs⟩ := toJson_eq_cons (stateObject s)
  have hsk : skipWs (QJsonDocument.toJson (stateObject s)) =
      QJsonDocument.toJson (stateObject s) := by
    rw [hcs]; simp [skipWs]
  have hlen := toJson_stateObject_length s
  unfold QJsonDocument.fromJson
  rw [hsk, parseValue_stateObject s _ (by omega)]
  simp [skipWs]

/-! ## The settings store, `saveWindowState`, `loadWindowState`, `setJob` -/

theorem find_filter_ne (es : List (QString × QByteArray)) (k k2 : QString) (h : k2 ≠ k) :
    (es.filter (fun e => e.1 ≠ k)).find? (fun e => e.1 = k2) = es.find? (fun e => e.1 = k2) := by
  induction es with
  | nil => rfl
  | cons e es ih =>
    by_cases he : e.1 = k
    · have he2 : ¬ e.1 = k2 := fun e2 => h (e2.symm.trans he)
      rw [List.filter_cons_of_neg (by simpa using he),
        List.find?_cons_of_neg _ (by simpa using he2)]
      exact ih
    · rw [List.filter_cons_of_pos (by simpa using he)]
      by_cases he2 : e.1 = k2
      · rw [List.find?_cons_of_pos _ (by simpa using he2),
          List.find?_cons_of_pos _ (by simpa using he2)]
      · rw [List.find?_cons_of_neg _ (by simpa using he2),
          List.find?_cons_of_neg _ (by simpa using he2)]
        exact ih

theorem find_cons_filter (es : List (QString × QByteArray)) (a a2 : QString)
    (v : QByteArray) :
    (match ((a, v) :: es.filter (fun e => e.1 ≠ a)).find? (fun e => e.1 = a2) with
      | some e => e.2
      | none => []) =
    if a2 = a then v
    else (match es.find? (fun e => e.1 = a2) with
      | some e => e.2
      | none => []) := by
  by_cases h : a2 = a
  · rw [if_pos h, List.find?_cons_of_pos _ (by simpa using h.symm)]
  · have hne : ¬ a = a2 := fun e => h e.symm
    rw [if_neg h, List.find?_cons_of_neg _ (by simpa using hne), find_filter_ne es a a2 h]

/-- What is stored after a `setValue`: the new value under every key that names
the same entry as the key written, the old value under every other key. -/
theorem stored_setValue (s : QSettings) (k k2 : QString) (v : QByteArray) :
    (s.setValue k v).stored k2 = if s.actualKey k2 = s.actualKey k then v else s.stored k2 :=
  find_cons_filter s.entries (s.actualKey k) (s.actualKey k2) v

theorem clampSize_of_range (n : Int) (h : 0 ≤ n ∧ n ≤ QWIDGETSIZE_MAX) : clampSize n = n := by
  unfold clampSize
  rw [if_neg (by omega), if_neg (by omega)]

theorem clampSize_range (n : Int) : 0 ≤ clampSize n ∧ clampSize n ≤ QWIDGETSIZE_MAX := by
  unfold clampSize QWIDGETSIZE_MAX
  split
  · decide
  · split
    · decide
    · constructor <;> omega

theorem clampSize_fits (n : Int) : fitsInt (clampSize n) := by
  have h := clampSize_range n
  unfold QWIDGETSIZE_MAX at h
  unfold fitsInt INT_MIN INT_MAX
  constructor <;> omega

theorem WindowState.inWidgetRange.fits {s : WindowState} (h : s.inWidgetRange) : s.fits := by
  obtain ⟨hx, hy, hw, hh⟩ := h
  unfold QWIDGETSIZE_MAX at hw hh
  refine ⟨hx, hy, ?_, ?_⟩ <;> unfold fitsInt INT_MIN INT_MAX <;> constructor <;> omega

/-- With nothing stored under the key of the active context, `loadWindowState`
only records its one read. -/
theorem loadWindowState_absent (v : AetherHUDWindow)
    (h : v.settings.stored (stateKey v.currentJob) = []) :
    v.loadWindowState =
      { v with settings := (v.settings.value (stateKey v.currentJob)).2 } := by
  simp [AetherHUDWindow.loadWindowState, QSettings.value, h]

/-- The text written for six values of type `int` is read back as these values. -/
theorem readWindowState_toJson (s : WindowState) (hfit : s.fits) :
    readWindowState (QJsonDocument.toJson (stateObject s)) = s := by
  obtain ⟨hx, hy, hw, hh⟩ := hfit
  unfold fitsInt at hx hy hw hh
  unfold readWindowState
  rw [fromJson_toJson_stateObject, stateObject_eq]
  simp [QJsonDocument.object, QJsonObject.value, QJsonValue.toObject, QJsonValue.toInt,
    QJsonValue.toBool, hx, hy, hw, hh]

/-- With the text saved for `s` stored under the key of the active context,
`loadWindowState` installs the position, visibility and lock flag of `s` and the
size of `s` as `resize` bounds it. -/
theorem loadWindowState_saved (v : AetherHUDWindow) (s : WindowState) (hfit : s.fits)
    (h : v.settings.stored (stateKey v.currentJob) = QJsonDocument.toJson (stateObject s)) :
    v.loadWindowState =
      { v with
        x := s.x, y := s.y, width := clampSize s.width, height := clampSize s.height
        visible := s.visible, isLocked := s.locked
        settings := (v.settings.value (stateKey v.currentJob)).2 } := by
  unfold AetherHUDWindow.loadWindowState
  simp only [QSettings.value, h, readWindowState_toJson s hfit, AetherHUDWindow.move,
    AetherHUDWindow.resize, AetherHUDWindow.setVisible, if_pos (toJson_ne_nil (stateObject s))]

theorem loadWindowState_currentJob (v : AetherHUDWindow) :
    v.loadWindowState.currentJob = v.currentJob := by
  unfold AetherHUDWindow.loadWindowState
  simp only [AetherHUDWindow.move, AetherHUDWindow.resize, AetherHUDWindow.setVisible]
  split <;> rfl

theorem loadWindowState_stored (v : AetherHUDWindow) (k : QString) :
    v.loadWindowState.settings.stored k = v.settings.stored k := by
  unfold AetherHUDWindow.loadWindowState
  simp only [AetherHUDWindow.move, AetherHUDWindow.resize, AetherHUDWindow.setVisible]
  split <;> rfl

theorem loadWindowState_caseFold (v : AetherHUDWindow) :
    v.loadWindowState.settings.caseFold = v.settings.caseFold := by
  unfold AetherHUDWindow.loadWindowState
  simp only [AetherHUDWindow.move, AetherHUDWindow.resize, AetherHUDWindow.setVisible]
  split <;> rfl

theorem setJob_caseFold (w : AetherHUDWindow) (job : QString) :
    (w.setJob job).settings.caseFold = w.settings.caseFold := by
  unfold AetherHUDWindow.setJob
  split
  · rw [loadWindowState_caseFold]; rfl
  · rfl

theorem actualKey_congr {s t : QSettings} (h : s.caseFold = t.caseFold) (k : QString) :
    s.actualKey k = t.actualKey k := by
  unfold QSettings.actualKey
  rw [h]

theorem saveWindowState_stored (w : AetherHUDWindow) (k : QString) :
    w.saveWindowState.settings.stored k =
      if w.settings.actualKey k = w.settings.actualKey (stateKey w.currentJob) then
        QJsonDocument.toJson (stateObject w.windowState)
      else w.settings.stored k := by
  simp [AetherHUDWindow.saveWindowState, stored_setValue]

theorem setJob_of_ne (w : AetherHUDWindow) (job : QString) (h : w.currentJob ≠ job) :
    w.setJob job =
      ({ w.saveWindowState with currentJob := job } : AetherHUDWindow).loadWindowState := by
  simp [AetherHUDWindow.setJob, h]

theorem setJob_currentJob (w : AetherHUDWindow) (job : QString) :
    (w.setJob job).currentJob = job := by
  by_cases h : w.currentJob = job
  · simp [AetherHUDWindow.setJob, h]
  · rw [setJob_of_ne w job h, loadWindowState_currentJob]

theorem setJob_stored_outgoing (w : AetherHUDWindow) (job : QString) (h : w.currentJob ≠ job) :
    (w.setJob job).settings.stored (stateKey w.currentJob) =
      QJsonDocument.toJson (stateObject w.windowState) := by
  rw [setJob_of_ne w job h, loadWindowState_stored]
  show w.saveWindowState.settings.stored (stateKey w.currentJob) = _
  rw [saveWindowState_stored, if_pos rfl]

theorem setJob_stored_other (w : AetherHUDWindow) (job k : QString)
    (hk : w.settings.actualKey k ≠ w.settings.actualKey (stateKey w.currentJob)) :
    (w.setJob job).settings.stored k = w.settings.stored k := by
  by_cases h : w.currentJob = job
  · simp [AetherHUDWindow.setJob, h]
  · rw [setJob_of_ne w job h, loadWindowState_stored]
    show w.saveWindowState.settings.stored k = _
    rw [saveWindowState_stored, if_neg hk]

/-- The calls `setJob` makes on the store when the context changes: one
`setValue` under the key of the old context, then one `value` under the key of
the new one. -/
theorem setJob_calls (w : AetherHUDWindow) (job : QString) (h : w.currentJob ≠ job) :
    (w.setJob job).settings.calls =
      .value (stateKey job) ::
        .setValue (stateKey w.currentJob) (QJsonDocument.toJson (stateObject w.windowState)) ::
          w.settings.calls := by
  rw [setJob_of_ne w job h]
  unfold AetherHUDWindow.loadWindowState
  simp only [AetherHUDWindow.move, AetherHUDWindow.resize, AetherHUDWindow.setVisible]
  split <;> rfl

/-- Switching to a context that names another entry of the store than the
current one, an entry that holds the text saved for `s`, installs `s` with its
size bounded by `resize`. -/
theorem setJob_restores (u : AetherHUDWindow) (job : QString) (s : WindowState) (hfit : s.fits)
    (hkey : u.settings.actualKey (stateKey job) ≠ u.settings.actualKey (stateKey u.currentJob))
    (hst : u.settings.stored (stateKey job) = QJsonDocument.toJson (stateObject s)) :
    (u.setJob job).windowState =
      { s with width := clampSize s.width, height := clampSize s.height } := by
  have hne : u.currentJob ≠ job := fun e => hkey (by rw [e])
  rw [setJob_of_ne u job hne]
  have h : ({ u.saveWindowState with currentJob := job } : AetherHUDWindow).settings.stored
      (stateKey ({ u.saveWindowState with currentJob := job } : AetherHUDWindow).currentJob) =
      QJsonDocument.toJson (stateObject s) := by
    show u.saveWindowState.settings.stored (stateKey job) = _
    rw [saveWindowState_stored, if_neg hkey, hst]
  rw [loadWindowState_saved _ s hfit h]
  rfl

/-! ## Position and size of a window stay in the range of a widget -/

theorem toInt_fits (v : QJsonValue) : fitsInt v.toInt := by
  unfold QJsonValue.toInt fitsInt
  split
  · split
    · assumption
    · decide
  · decide

theorem readWindowState_fits (savedState : QByteArray) : (readWindowState savedState).fits :=
  ⟨toInt_fits _, toInt_fits _, toInt_fits _, toInt_fits _⟩

theorem loadWindowState_inWidgetRange (w : AetherHUDWindow) (h : w.windowState.inWidgetRange) :
    w.loadWindowState.windowState.inWidgetRange := by
  unfold AetherHUDWindow.loadWindowState
  simp only [AetherHUDWindow.move, AetherHUDWindow.resize, AetherHUDWindow.setVisible]
  split
  · exact ⟨toInt_fits _, toInt_fits _, clampSize_range _, clampSize_range _⟩
  · exact h

theorem setJob_inWidgetRange (w : AetherHUDWindow) (job : QString)
    (h : w.windowState.inWidgetRange) : (w.setJob job).windowState.inWidgetRange := by
  unfold AetherHUDWindow.setJob
  split
  · exact loadWindowState_inWidgetRange _ h
  · exact h

theorem toggleLock_inWidgetRange (w : AetherHUDWindow) (h : w.windowState.inWidgetRange) :
    w.toggleLock.windowState.inWidgetRange := by
  unfold AetherHUDWindow.toggleLock
  simp only [AetherHUDWindow.setCursor, AetherHUDWindow.setStyleSheet]
  split <;> exact h

theorem new_inWidgetRange (url : QString) (caseFold : QString → QString)
    (persisted : List (QString × QByteArray)) :
    (AetherHUDWindow.new url caseFold persisted).windowState.inWidgetRange :=
  loadWindowState_inWidgetRange _
    ⟨(by decide : fitsInt 0), (by decide : fitsInt 0),
      (by decide : (0 : Int) ≤ 640 ∧ (640 : Int) ≤ QWIDGETSIZE_MAX),
      (by decide : (0 : Int) ≤ 480 ∧ (480 : Int) ≤ QWIDGETSIZE_MAX)⟩

theorem main_inWidgetRange (url : QString) (caseFold : QString → QString)
    (persisted : List (QString × QByteArray)) :
    (main url caseFold persisted).windowState.inWidgetRange :=
  ⟨(new_inWidgetRange url caseFold persisted).1, (new_inWidgetRange url caseFold persisted).2.1,
    clampSize_range 800, clampSize_range 600⟩

/-- After startup the window is visible, whatever the store holds. -/
theorem main_visible (url : QString) (caseFold : QString → QString)
    (persisted : List (QString × QByteArray)) : (main url caseFold persisted).visible = true := by
  simp [main, AetherHUDWindow.show, AetherHUDWindow.setVisible, AetherHUDWindow.resize]

/-! ## The claims -/

/-- C1 (round-trip).  For every saved state `S` of `int` values, every key `K` and
every store: after `setValue(K, text)` with the text `saveWindowState` builds for
`S`, `value(K)` is non-empty and the values `loadWindowState` reads from it are
`S`.  At the level of the window: when a window holding `S` is saved, any window
of the same context on that store loads the six values of `S`, whatever its own
position, size, visibility and lock flag were; `resize` bounds the two sides of the
size to what a widget can have, which leaves the size of a widget as it is. -/
theorem windowState_roundtrip (S : WindowState) (hfit : S.fits) (K : QString)
    (store : QSettings) (w : AetherHUDWindow) :
    ((store.setValue K (QJsonDocument.toJson (stateObject S))).value K).1 ≠ [] ∧
    readWindowState ((store.setValue K (QJsonDocument.toJson (stateObject S))).value K).1 = S ∧
    ({ w with
        settings := ({ w with
          x := S.x, y := S.y, width := S.width, height := S.height
          visible := S.visible, isLocked := S.locked } : AetherHUDWindow).saveWindowState.settings
      } : AetherHUDWindow).loadWindowState.windowState =
      { S with width := clampSize S.width, height := clampSize S.height } := by
  have hst : ((store.setValue K (QJsonDocument.toJson (stateObject S))).value K).1 =
      QJsonDocument.toJson (stateObject S) := by
    simp [QSettings.value, stored_setValue]
  refine ⟨?_, ?_, ?_⟩
  · rw [hst]; exact toJson_ne_nil _
  · rw [hst]; exact readWindowState_toJson S hfit
  · rw [loadWindowState_saved _ S hfit]
    · rfl
    · show (AetherHUDWindow.saveWindowState _).settings.stored (stateKey w.currentJob) = _
      rw [saveWindowState_stored]
      exact if_pos rfl

/-- Witness of C1 at the state of the spec's example, key "raid", an empty store. -/
theorem windowState_roundtrip_witness :
    exampleWindow.windowState.fits ∧
    readWindowState
      ((QSettings.setValue ⟨id, [], []⟩ "raid"
        (QJsonDocument.toJson (stateObject exampleWindow.windowState))).value "raid").1
      = { x := 100, y := 100, width := 800, height := 600, visible := true, locked := false } :=
  ⟨by decide,
    (windowState_roundtrip exampleWindow.windowState (by decide) "raid" ⟨id, [], []⟩
      exampleWindow).2.1⟩

/-- C3 (idempotent no-op switch).  `setJob` with the context that is already
active returns the window as it was: same store entries, same list of calls on
the store (no read, no write), same context, position, size, visibility and
lock flag. -/
theorem setJob_same_context (w : AetherHUDWindow) : w.setJob w.currentJob = w := by
  simp [AetherHUDWindow.setJob]

/-- C4 (error suppression), evaluated on the freshly started window: two failed
loads in a row render two error pages, and `lastError` is still empty. -/
theorem handleLoadFinished_twice_renders_twice :
    (((main "http://localhost:3000" id []).handleLoadFinished false).handleLoadFinished
        false).page.errorPages.length = 2 ∧
    ((main "http://localhost:3000" id []).handleLoadFinished false).lastError = "" ∧
    (((main "http://localhost:3000" id []).handleLoadFinished false).handleLoadFinished
        false).lastError = "" := by
  decide

/-- C5 fails on the freshly constructed window: after two `toggleLock` calls
the lock flag is back, the style sheet and the cursor are not. -/
theorem toggleLock_twice_fresh_window :
    (AetherHUDWindow.new "http://localhost:3000" id []).toggleLock.toggleLock.isLocked =
      (AetherHUDWindow.new "http://localhost:3000" id []).isLocked ∧
    (AetherHUDWindow.new "http://localhost:3000" id []).styleSheet
      = "background: transparent;" ∧
    (AetherHUDWindow.new "http://localhost:3000" id []).toggleLock.toggleLock.styleSheet =
      "background: transparent; border: 1px solid rgba(255,206,84,0.3);" ∧
    (AetherHUDWindow.new "http://localhost:3000" id []).toggleLock.toggleLock.styleSheet ≠
      (AetherHUDWindow.new "http://localhost:3000" id []).styleSheet ∧
    (AetherHUDWindow.new "http://localhost:3000" id []).toggleLock.toggleLock.cursor ≠
      (AetherHUDWindow.new "http://localhost:3000" id []).cursor := by
  decide

/-- C5 as amended.  Two `toggleLock` calls change nothing but the style sheet
and the cursor, which become the ones `toggleLock` sets for the window's lock
flag; the lock flag and the pointer routing are as before.  On a window that a
`toggleLock` call has just left, two more calls restore everything. -/
theorem toggleLock_twice (w : AetherHUDWindow) :
    w.toggleLock.toggleLock =
      { w with
        cursor := if w.isLocked then .ArrowCursor else .SizeAllCursor
        styleSheet :=
          if w.isLocked then "background: transparent; border: none;"
          else "background: transparent; border: 1px solid rgba(255,206,84,0.3);" } ∧
    w.toggleLock.toggleLock.isLocked = w.isLocked ∧
    w.toggleLock.toggleLock.forwardsMouseEvent = w.forwardsMouseEvent ∧
    w.toggleLock.toggleLock.toggleLock = w.toggleLock := by
  cases h : w.isLocked <;>
    simp [AetherHUDWindow.toggleLock, AetherHUDWindow.setCursor, AetherHUDWindow.setStyleSheet,
      AetherHUDWindow.forwardsMouseEvent, h]

/-- C8, evaluated: the store holds under "defaultState" the state of a hidden
window of size 400x300 at (100,100).  The constructor restores it, hidden and
400x300; `main` then resizes to 800x600 and shows the window, so after startup
it is visible.  The same text stored under "raid" and loaded by `setJob("raid")`
after startup leaves the window hidden and 400x300. -/
theorem main_shows_hidden_state :
    readWindowState hiddenStateText =
      { x := 100, y := 100, width := 400, height := 300, visible := false, locked := false } ∧
    (AetherHUDWindow.new "http://localhost:3000" id
        [("defaultState", hiddenStateText)]).windowState =
      { x := 100, y := 100, width := 400, height := 300, visible := false, locked := false } ∧
    (main "http://localhost:3000" id [("defaultState", hiddenStateText)]).windowState =
      { x := 100, y := 100, width := 800, height := 600, visible := true, locked := false } ∧
    ((main "http://localhost:3000" id [("raid", hiddenStateText)]).setJob "raid").windowState =
      { x := 100, y := 100, width := 400, height := 300, visible := false, locked := false } := by
  decide

/-- C2 fails for the contexts "" and "defaultState", which share the key
"defaultState": from the freshly started window, after `setJob("")`, geometry
(10,20,300,200), `setJob("defaultState")`, geometry (50,60,700,500), `setJob("")`
the window has the second geometry, not the first.  It fails in the same way for
the contexts "raid" and "/raid", whose keys the store normalises to one. -/
theorem setJob_shared_key :
    ("" : QString) ≠ "defaultState" ∧
    stateKey "" = stateKey "defaultState" ∧
    ((((((((main "http://localhost:3000" id []).setJob "").move 10 20).resize 300 200).setJob
        "defaultState").move 50 60).resize 700 500).setJob "").windowState
      = { x := 50, y := 60, width := 700, height := 500, visible := true, locked := false } ∧
    ("raid" : QString) ≠ "/raid" ∧
    ((((((((main "http://localhost:3000" id []).setJob "raid").move 10 20).resize 300 200).setJob
        "/raid").move 50 60).resize 700 500).setJob "raid").windowState
      = { x := 50, y := 60, width := 700, height := 500, visible := true, locked := false } := by
  decide

/-- C2 as amended.  Take contexts `A` and `B` whose keys (the context itself,
"defaultState" for the empty context) name different entries of the store, that
is, differ after the normalisation and the case folding the store applies to
keys; any starting window and store; a first position of `int` values; any sizes
and second position.  After `setJob(A)`, move and resize to the first geometry,
`setJob(B)`, move and resize to the second geometry, `setJob(A)`, the window has
the position, size, visibility and lock flag it had when it left `A`: the first
position, the first size as `resize` bounded it, and `A` is active. -/
theorem setJob_context_isolation (w0 : AetherHUDWindow) (A B : QString)
    (hkey : w0.settings.actualKey (if A = "" then "defaultState" else A) ≠
      w0.settings.actualKey (if B = "" then "defaultState" else B))
    (ax ay aw ah bx by_ bw bh : Int) (hfit : fitsInt ax ∧ fitsInt ay) :
    (((((((w0.setJob A).move ax ay).resize aw ah).setJob B).move bx by_).resize bw bh).setJob
        A).windowState = (((w0.setJob A).move ax ay).resize aw ah).windowState ∧
    (((((((w0.setJob A).move ax ay).resize aw ah).setJob B).move bx by_).resize bw bh).setJob
        A).windowState =
      { x := ax, y := ay, width := clampSize aw, height := clampSize ah
        visible := (w0.setJob A).visible
        locked := (w0.setJob A).isLocked } ∧
    (((((((w0.setJob A).move ax ay).resize aw ah).setJob B).move bx by_).resize bw bh).setJob
        A).currentJob = A := by
  have hA : (((w0.setJob A).move ax ay).resize aw ah).currentJob = A := setJob_currentJob w0 A
  have hAB : (((w0.setJob A).move ax ay).resize aw ah).currentJob ≠ B := by
    rw [hA]; exact fun e => hkey (by rw [e])
  have hst := setJob_stored_outgoing (((w0.setJob A).move ax ay).resize aw ah) B hAB
  rw [hA] at hst
  have hB : ((((w0.setJob A).move ax ay).resize aw ah).setJob B).currentJob = B :=
    setJob_currentJob _ B
  have hfold : ((((((w0.setJob A).move ax ay).resize aw ah).setJob B).move bx by_).resize bw
      bh).settings.caseFold = w0.settings.caseFold := by
    show ((((w0.setJob A).move ax ay).resize aw ah).setJob B).settings.caseFold = _
    rw [setJob_caseFold]
    exact setJob_caseFold w0 A
  have hres := setJob_restores
    ((((((w0.setJob A).move ax ay).resize aw ah).setJob B).move bx by_).resize bw bh) A
    (((w0.setJob A).move ax ay).resize aw ah).windowState
    ⟨hfit.1, hfit.2, clampSize_fits aw, clampSize_fits ah⟩
    (by
      rw [actualKey_congr hfold, actualKey_congr hfold]
      show w0.settings.actualKey (stateKey A) ≠
        w0.settings.actualKey
          (stateKey ((((w0.setJob A).move ax ay).resize aw ah).setJob B).currentJob)
      rw [hB]
      exact hkey)
    hst
  have hclamp : ({ (((w0.setJob A).move ax ay).resize aw ah).windowState with
      width := clampSize (((w0.setJob A).move ax ay).resize aw ah).windowState.width
      height := clampSize (((w0.setJob A).move ax ay).resize aw ah).windowState.height } :
        WindowState) = (((w0.setJob A).move ax ay).resize aw ah).windowState := by
    show ({ x := ax, y := ay, width := clampSize (clampSize aw)
            height := clampSize (clampSize ah), visible := (w0.setJob A).visible
            locked := (w0.setJob A).isLocked } : WindowState) =
      { x := ax, y := ay, width := clampSize aw, height := clampSize ah
        visible := (w0.setJob A).visible, locked := (w0.setJob A).isLocked }
    rw [clampSize_of_range _ (clampSize_range aw), clampSize_of_range _ (clampSize_range ah)]
  rw [hclamp] at hres
  exact ⟨hres, hres, setJob_currentJob _ _⟩

/-- Witness of C2 as amended: contexts "" and "raid" on the freshly started
window. -/
theorem setJob_context_isolation_witness :
    (main "http://localhost:3000" id []).settings.actualKey "defaultState" ≠
      (main "http://localhost:3000" id []).settings.actualKey "raid" ∧
    (fitsInt 10 ∧ fitsInt 20) ∧
    ((((((((main "http://localhost:3000" id []).setJob "").move 10 20).resize 300 200).setJob
        "raid").move 50 60).resize 700 500).setJob "").windowState
      = { x := 10, y := 20, width := 300, height := 200, visible := true, locked := false } :=
  ⟨by decide, by decide,
    (setJob_context_isolation (main "http://localhost:3000" id []) "" "raid" (by decide)
      10 20 300 200 50 60 700 500 (by decide)).2.1⟩

/-- C6, evaluated: a visible, locked window at (100,100) of size 800x600 switches
to the context "raid".  With the text "not json" stored under "raid" the window
ends at (0,0) with size 0x0, hidden and unlocked; with nothing stored under
"raid" it stays as it was. -/
theorem loadWindowState_corrupt :
    corruptText ≠ [] ∧
    QJsonDocument.fromJson corruptText = .null ∧
    (((main "http://localhost:3000" id [("raid", corruptText)]).move 100
        100).toggleLock.setJob "raid").windowState
      = { x := 0, y := 0, width := 0, height := 0, visible := false, locked := false } ∧
    (((main "http://localhost:3000" id []).move 100 100).toggleLock.setJob "raid").windowState
      = { x := 100, y := 100, width := 800, height := 600, visible := true, locked := true } :=
  ⟨by decide, rfl, by decide, by decide⟩

/-- C7, evaluated: from the freshly started window, `toggleLock` (locked),
`setJob("raid")`, `toggleLock` (unlocked), `setJob("")`.  The last call loads the
state saved for the default context: the lock flag is set and pointer events are
no longer forwarded, while the style sheet and the cursor are still the ones
`toggleLock` sets for an unlocked window. -/
theorem loadWindowState_keeps_affordance :
    ((((main "http://localhost:3000" id []).toggleLock.setJob "raid").toggleLock).setJob
        "").isLocked = true ∧
    ((((main "http://localhost:3000" id []).toggleLock.setJob "raid").toggleLock).setJob
        "").forwardsMouseEvent = false ∧
    ((((main "http://localhost:3000" id []).toggleLock.setJob "raid").toggleLock).setJob
        "").styleSheet = "background: transparent; border: 1px solid rgba(255,206,84,0.3);" ∧
    ((((main "http://localhost:3000" id []).toggleLock.setJob "raid").toggleLock).setJob
        "").cursor = .SizeAllCursor ∧
    (main "http://localhost:3000" id []).toggleLock.styleSheet =
      "background: transparent; border: none;" ∧
    (main "http://localhost:3000" id []).toggleLock.cursor = .ArrowCursor := by
  decide

/-- C9 (shutdown persistence).  Destroying a window whose position and size
are `int` values makes exactly one call on the store, a `setValue` under the
key of the active context ("defaultState" for the empty context); the value
then read under that key is non-empty and decodes to the position, size,
visibility and lock flag of the window; no key that names another entry of the
store changes, and nothing else of the window changes. -/
theorem destroy_persists (w : AetherHUDWindow) (hfit : w.windowState.fits) :
    w.destroy.settings.calls =
      .setValue (if w.currentJob = "" then "defaultState" else w.currentJob)
        (QJsonDocument.toJson (stateObject w.windowState)) :: w.settings.calls ∧
    (w.destroy.settings.value (if w.currentJob = "" then "defaultState" else w.currentJob)).1
      ≠ [] ∧
    readWindowState
      (w.destroy.settings.value (if w.currentJob = "" then "defaultState" else w.currentJob)).1
      = w.windowState ∧
    (∀ k, w.settings.actualKey k ≠
        w.settings.actualKey (if w.currentJob = "" then "defaultState" else w.currentJob) →
      w.destroy.settings.stored k = w.settings.stored k) ∧
    w.destroy = { w with settings := w.destroy.settings } := by
  have hst : (w.destroy.settings.value (stateKey w.currentJob)).1 =
      QJsonDocument.toJson (stateObject w.windowState) := by
    show w.saveWindowState.settings.stored (stateKey w.currentJob) = _
    rw [saveWindowState_stored, if_pos rfl]
  refine ⟨rfl, ?_, ?_, ?_, rfl⟩
  · show (w.destroy.settings.value (stateKey w.currentJob)).1 ≠ []
    rw [hst]; exact toJson_ne_nil _
  · show readWindowState (w.destroy.settings.value (stateKey w.currentJob)).1 = _
    rw [hst]; exact readWindowState_toJson _ hfit
  · intro k hk
    show w.saveWindowState.settings.stored k = _
    rw [saveWindowState_stored]
    exact if_neg hk

/-- Witness of C9: the spec's example, the window at (100,100) of size 800x600,
visible, unlocked, default context. -/
theorem destroy_persists_witness :
    exampleWindow.windowState.fits ∧
    exampleWindow.destroy.settings.calls =
      .setValue "defaultState" (QJsonDocument.toJson (stateObject exampleWindow.windowState))
        :: exampleWindow.settings.calls ∧
    readWindowState (exampleWindow.destroy.settings.value "defaultState").1
      = { x := 100, y := 100, width := 800, height := 600, visible := true, locked := false } :=
  ⟨by decide, (destroy_persists exampleWindow (by decide)).1,
    (destroy_persists exampleWindow (by decide)).2.2.1⟩

/-- C10 (switch to a new context).  Let `newContext` differ from the active
context `C`, let nothing be stored under the key of `newContext`, and let the
window have a position of `int` values and a size a widget can have.  Then
`setJob(newContext)` makes exactly two calls on the store, a `setValue` under the
key of `C` (`C` itself, "defaultState" when `C` is empty) and a `value` under
the key of `newContext`; the store then holds under the key of `C` the text
saved for the position, size, visibility and lock flag the window had, and the
text decodes to them; `newContext` is active; position, size, visibility and
lock flag are unchanged; every key that names another entry of the store than
the key of `C` holds what it held. -/
theorem setJob_new_context (w : AetherHUDWindow) (newContext : QString)
    (hne : w.currentJob ≠ newContext)
    (habsent :
      w.settings.stored (if newContext = "" then "defaultState" else newContext) = [])
    (hgeo : w.windowState.inWidgetRange) :
    (w.setJob newContext).settings.calls =
      .value (if newContext = "" then "defaultState" else newContext) ::
        .setValue (if w.currentJob = "" then "defaultState" else w.currentJob)
          (QJsonDocument.toJson (stateObject
            { x := w.x, y := w.y, width := w.width, height := w.height
              visible := w.visible, locked := w.isLocked })) :: w.settings.calls ∧
    (w.setJob newContext).settings.stored
        (if w.currentJob = "" then "defaultState" else w.currentJob) =
      QJsonDocument.toJson (stateObject
        { x := w.x, y := w.y, width := w.width, height := w.height
          visible := w.visible, locked := w.isLocked }) ∧
    readWindowState ((w.setJob newContext).settings.stored
        (if w.currentJob = "" then "defaultState" else w.currentJob)) =
      { x := w.x, y := w.y, width := w.width, height := w.height
        visible := w.visible, locked := w.isLocked } ∧
    (w.setJob newContext).currentJob = newContext ∧
    ((w.setJob newContext).x = w.x ∧ (w.setJob newContext).y = w.y ∧
      (w.setJob newContext).width = w.width ∧ (w.setJob newContext).height = w.height ∧
      (w.setJob newContext).visible = w.visible ∧
      (w.setJob newContext).isLocked = w.isLocked) ∧
    (∀ k, w.settings.actualKey k ≠
        w.settings.actualKey (if w.currentJob = "" then "defaultState" else w.currentJob) →
      (w.setJob newContext).settings.stored k = w.settings.stored k) := by
  have hst := setJob_stored_outgoing w newContext hne
  have hsame : (w.setJob newContext).windowState = w.windowState := by
    rw [setJob_of_ne w newContext hne]
    by_cases hk : w.settings.actualKey (stateKey newContext) =
        w.settings.actualKey (stateKey w.currentJob)
    · rw [loadWindowState_saved _ w.windowState hgeo.fits]
      · show ({ x := w.x, y := w.y, width := clampSize w.width, height := clampSize w.height
                visible := w.visible, locked := w.isLocked } : WindowState) = w.windowState
        have hw : clampSize w.width = w.width := clampSize_of_range _ hgeo.2.2.1
        have hh : clampSize w.height = w.height := clampSize_of_range _ hgeo.2.2.2
        rw [hw, hh]
        rfl
      · show w.saveWindowState.settings.stored (stateKey newContext) = _
        rw [saveWindowState_stored, if_pos hk]
    · rw [loadWindowState_absent]
      · rfl
      · show w.saveWindowState.settings.stored (stateKey newContext) = _
        rw [saveWindowState_stored, if_neg hk]
        exact habsent
  refine ⟨setJob_calls w newContext hne, hst, ?_, setJob_currentJob _ _, ?_,
    fun k hk => setJob_stored_other w newContext k hk⟩
  · show readWindowState ((w.setJob newContext).settings.stored (stateKey w.currentJob)) = _
    rw [hst]
    exact readWindowState_toJson _ hgeo.fits
  · exact ⟨congrArg WindowState.x hsame, congrArg WindowState.y hsame,
      congrArg WindowState.width hsame, congrArg WindowState.height hsame,
      congrArg WindowState.visible hsame, congrArg WindowState.locked hsame⟩

/-- Witness of C10: the window `raidWindow`, at (30,40) in the context "raid"
with the default context saved, switches to the context "dungeon".  The store
then holds the state of the window under "raid", and under "defaultState" what
it held. -/
theorem setJob_new_context_witness :
    raidWindow.currentJob ≠ "dungeon" ∧
    raidWindow.settings.stored "dungeon" = [] ∧
    raidWindow.windowState.inWidgetRange ∧
    (raidWindow.setJob "dungeon").settings.stored "raid" =
      QJsonDocument.toJson (stateObject
        { x := 30, y := 40, width := 800, height := 600, visible := true, locked := false }) ∧
    (raidWindow.setJob "dungeon").currentJob = "dungeon" ∧
    (raidWindow.setJob "dungeon").settings.stored "defaultState" =
      raidWindow.settings.stored "defaultState" :=
  ⟨by decide, by decide, by decide,
    (setJob_new_context raidWindow "dungeon" (by decide) (by decide) (by decide)).2.1,
    (setJob_new_context raidWindow "dungeon" (by decide) (by decide) (by decide)).2.2.2.1,
    (setJob_new_context raidWindow "dungeon" (by decide) (by decide) (by decide)).2.2.2.2.2
      "defaultState" (by decide)⟩

end AetherHUD
